import Mathlib

/-!
Verification of the price resolution pipeline of the retro-pricing-scraper
repository.  The Python sources under `src/price_enricher/` are shallowly
embedded: `Decimal` values become `ℚ` (arithmetic on the magnitudes involved is
exact in both), Python `None`-able values become `Option`, fallible calls become
`Except String`, and network/database effects are passed in as explicit
parameters.  Python truthiness on `Optional[Decimal]` (`if price:`) is modelled
by `optTruthy` below: it is `false` exactly when the value is `None` or `0`.
-/

namespace PriceEnricher

/-- Python truthiness of an `Optional[Decimal]`: `None` and `0` are falsy. -/
def optTruthy : Option ℚ → Bool
  | none => false
  | some q => q != 0

/-! Python's `str` methods used by the embedded code, implemented character by
character (with the ASCII reading of case mapping, as elsewhere in this
embedding). -/

/-- Python `str.upper()`. -/
def strUpper (s : String) : String :=
  String.mk (s.data.map Char.toUpper)

/-- Python `str.lower()`. -/
def strLower (s : String) : String :=
  String.mk (s.data.map Char.toLower)

/-- Python `str.strip()`: drop leading and trailing whitespace. -/
def strTrim (s : String) : String :=
  String.mk (((s.data.dropWhile Char.isWhitespace).reverse.dropWhile
    Char.isWhitespace).reverse)

/-- Python `str.split()` with no separator, on a character list: maximal
nonempty runs of non-whitespace.  The fuel (one unit per consumed character)
bounds the recursion. -/
def wordsGo : Nat → List Char → List (List Char)
  | 0, _ => []
  | _, [] => []
  | fuel + 1, cs =>
    match cs.dropWhile Char.isWhitespace with
    | [] => []
    | c :: cs1 =>
      let w := c :: cs1.takeWhile (fun d => ! d.isWhitespace)
      w :: wordsGo fuel ((c :: cs1).drop w.length)

/-- Python `str.split()` with no separator. -/
def pyWords (s : String) : List String :=
  (wordsGo s.data.length s.data).map String.mk

/-- `' '.join(words)` on character lists. -/
def joinWordsGo : List (List Char) → List Char
  | [] => []
  | [w] => w
  | w :: ws => w ++ (' ' :: joinWordsGo ws)

/-- `Decimal.quantize(Decimal("0.01"), rounding=ROUND_HALF_UP)`: round to two
decimal places, ties away from zero (Python's ROUND_HALF_UP rounds half away
from zero for negative numbers as well). -/
def quantize2 (q : ℚ) : ℚ :=
  (if q < 0 then -⌊(-q) * 100 + 1 / 2⌋ else ⌊q * 100 + 1 / 2⌋ : ℤ) / 100

/-! ## Data model (`models.py`) -/

/-- `Region` enum (`models.py`). -/
inductive Region
  | PAL
  | NTSC_U
  | NTSC_J
deriving DecidableEq, Repr

/-- `PackagingState` enum (`models.py`). -/
inductive PackagingState
  | CIB
  | LOOSE
  | UNKNOWN
deriving DecidableEq, Repr

/-- `PriceSource` enum (`models.py`). -/
inductive PriceSource
  | EBAY
  | RETROGAMEPRICES
deriving DecidableEq, Repr

/-- `Language` enum (`models.py`). -/
inductive Language
  | ANY
  | EN
  | FR
  | DE
  | IT
  | ES
deriving DecidableEq, Repr

/-- `GameItem` dataclass (`models.py`).  The `sold_date`-style time fields and
the progress-reporting machinery play no role in the verified operations.  The
component flags are the literal `"Y"`/`"N"`/`None` strings the code stores. -/
structure GameItem where
  platform : String
  title : String
  item_type : String := ""
  condition_text : String := ""
  rarity : String := ""
  local_estimate_eur : Option ℚ := none
  has_box : Option String := none
  has_manual : Option String := none
  has_insert : Option String := none
  has_game : Option String := none
  notes : String := ""
  region : Region := .PAL
  online_estimate_eur : Option ℚ := none
  calculation_details : String := ""
  row_index : Int := 0
  raw_data : List (String × String) := []
deriving DecidableEq, Repr

/-- `GameItem.packaging_state` property (`models.py`). -/
def GameItem.packaging_state (it : GameItem) : PackagingState :=
  if it.has_game ≠ some "Y" then .UNKNOWN
  else if it.has_game = some "Y" ∧ it.has_box = some "Y" ∧ it.has_manual = some "Y" then .CIB
  else .LOOSE

/-- `GameItem.is_processable` property (`models.py`). -/
def GameItem.is_processable (it : GameItem) : Bool :=
  it.has_game = some "Y"

/-- `SoldListing` dataclass (`models.py`); the `sold_date` timestamp is not
modelled (it only feeds the human-readable details text). -/
structure SoldListing where
  title : String
  price : ℚ
  currency : String
  condition : String := ""
  url : String := ""
  shipping_cost : Option ℚ := none
  price_eur : Option ℚ := none
  shipping_eur : Option ℚ := none
deriving DecidableEq, Repr

/-- `SoldListing.total_eur` property (`models.py`): price plus shipping when a
truthy shipping amount is present. -/
def SoldListing.total_eur (l : SoldListing) : Option ℚ :=
  match l.price_eur with
  | none => none
  | some p =>
    match l.shipping_eur with
    | some s => if s ≠ 0 then some (p + s) else some p
    | none => some p

/-- `PriceResult` dataclass (`models.py`). -/
structure PriceResult where
  source : PriceSource
  price_eur : Option ℚ := none
  details : String := ""
  success : Bool := false
  error : String := ""
  listings : List SoldListing := []
  num_results : Nat := 0
  strategy_used : String := ""
  loose_price : Option ℚ := none
  cib_price : Option ℚ := none
deriving DecidableEq, Repr

/-- `EnrichmentResult` dataclass (`models.py`). -/
structure EnrichmentResult where
  game : GameItem
  ebay_result : Option PriceResult := none
  rgp_result : Option PriceResult := none
  final_estimate_eur : Option ℚ := none
  calculation_details : String := ""
  success : Bool := false
deriving DecidableEq, Repr

/-! ## Pricing orchestrator (`pricing.py`) -/

/-- The `only_source` configuration literal (`pricing.py`). -/
inductive SourceSel
  | ebay
  | rgp
  | both
deriving DecidableEq, Repr

/-- The fields of `PricingConfig` (`pricing.py`) consumed by `enrich_item` and
`_calculate_weighted_average`; the remaining fields only parameterize the
source lookups, which are passed in explicitly. -/
structure PricingConfig where
  only_source : SourceSel := .both
  weight_ebay : ℚ := 7 / 10
  weight_rgp : ℚ := 3 / 10
  include_non_game : Bool := false
deriving DecidableEq, Repr

/-- The per-source price extracted by `_calculate_weighted_average`
(`pricing.py` lines 185-186): the result's price when the result exists and
succeeded, else `None`. -/
def successPrice : Option PriceResult → Option ℚ
  | some r => if r.success then r.price_eur else none
  | none => none

/-- `PricingEngine._calculate_weighted_average` (`pricing.py` lines 179-202).
The Python `if ebay_price and rgp_price:` chain tests truthiness, so a
present-but-zero price falls through to the next branch. -/
def calculate_weighted_average (weight_ebay weight_rgp : ℚ)
    (ebay_result rgp_result : Option PriceResult) : Option ℚ :=
  let ebay_price := successPrice ebay_result
  let rgp_price := successPrice rgp_result
  if optTruthy ebay_price && optTruthy rgp_price then
    some (quantize2 (ebay_price.getD 0 * weight_ebay + rgp_price.getD 0 * weight_rgp))
  else if optTruthy ebay_price then
    some (quantize2 (ebay_price.getD 0))
  else if optTruthy rgp_price then
    some (quantize2 (rgp_price.getD 0))
  else
    none

/-- The failed `PriceResult` that `enrich_item` builds when the eBay lookup
raises (`pricing.py` lines 125-130). -/
def failed_ebay_result (msg : String) : PriceResult :=
  { source := .EBAY, success := false, error := msg,
    details := "eBay error: " ++ msg }

/-- The failed `PriceResult` that `enrich_item` builds when the RGP lookup
raises (`pricing.py` lines 159-164). -/
def failed_rgp_result (msg : String) : PriceResult :=
  { source := .RETROGAMEPRICES, success := false, error := msg,
    details := "RetroGamePrices error: " ++ msg }

/-- The USD→EUR conversion applied to a successful RGP result inside
`enrich_item`'s try-block (`pricing.py` lines 141-154); `conv` stands for
`fx_converter.convert_to_eur(·, "USD")`, which may raise. -/
def convert_rgp_result (conv : ℚ → Except String ℚ) (r : PriceResult) :
    Except String PriceResult := do
  if r.success ∧ optTruthy r.price_eur then
    let p ← conv (r.price_eur.getD 0)
    let lp ← if optTruthy r.loose_price then
        (conv (r.loose_price.getD 0)).map some
      else pure r.loose_price
    let cp ← if optTruthy r.cib_price then
        (conv (r.cib_price.getD 0)).map some
      else pure r.cib_price
    pure { r with price_eur := some p, loose_price := lp, cib_price := cp }
  else
    pure r

/-- `PricingEngine.enrich_item` (`pricing.py` lines 93-177), with the two
network lookups and the FX conversion passed in as explicit outcomes:
`ebayLookup` stands for the awaited `get_ebay_price` call and `rgpLookup` for
`get_rgp_price`; a raised exception is an `Except.error` carrying `str(e)`.
The `_build_details` explanation text is not modelled (no claim concerns it),
so `calculation_details` of a non-skipped item is left `""`. -/
def enrich_item (cfg : PricingConfig) (item : GameItem)
    (ebayLookup rgpLookup : Except String PriceResult)
    (conv : ℚ → Except String ℚ) : EnrichmentResult :=
  if ¬ item.is_processable ∧ ¬ cfg.include_non_game then
    { game := item,
      calculation_details := "Skipped: No game present (has_game != Y)" }
  else
    let ebay_result : Option PriceResult :=
      if cfg.only_source = .ebay ∨ cfg.only_source = .both then
        some (match ebayLookup with
          | .ok r => r
          | .error e => failed_ebay_result e)
      else none
    let rgp_result : Option PriceResult :=
      if cfg.only_source = .rgp ∨ cfg.only_source = .both then
        some (match rgpLookup >>= convert_rgp_result conv with
          | .ok r => r
          | .error e => failed_rgp_result e)
      else none
    let fin := calculate_weighted_average cfg.weight_ebay cfg.weight_rgp
      ebay_result rgp_result
    { game := item, ebay_result := ebay_result, rgp_result := rgp_result,
      final_estimate_eur := fin, success := fin.isSome }

/-- `PricingEngine.enrich_batch` (`pricing.py` lines 264-297): the items are
processed sequentially and independently; progress reporting and console
logging are external effects with no influence on the returned list. -/
def enrich_batch (cfg : PricingConfig) (items : List GameItem)
    (ebayLookup rgpLookup : GameItem → Except String PriceResult)
    (conv : ℚ → Except String ℚ) : List EnrichmentResult :=
  items.map (fun it => enrich_item cfg it (ebayLookup it) (rgpLookup it) conv)

/-- The `result_map` dict comprehension of `apply_enrichment_to_items`
(`pricing.py` line 315): keyed by `row_index`, a later result overwrites an
earlier one with the same key. -/
def enrichment_result_map (results : List EnrichmentResult) :
    Int → Option EnrichmentResult :=
  results.foldl
    (fun m r => fun k => if k = r.game.row_index then some r else m k)
    (fun _ => none)

/-- `apply_enrichment_to_items` (`pricing.py` lines 300-323). -/
def apply_enrichment_to_items (items : List GameItem)
    (results : List EnrichmentResult) : List GameItem :=
  let result_map := enrichment_result_map results
  items.map (fun item =>
    match result_map item.row_index with
    | some r =>
      { item with online_estimate_eur := r.final_estimate_eur,
                  calculation_details := r.calculation_details }
    | none => item)

/-! ## Currency converter (`fx.py`) -/

/-- `FALLBACK_RATES` (`fx.py` lines 12-25), EUR per one unit of each
currency. -/
def FALLBACK_RATES : List (String × ℚ) :=
  [("EUR", 1), ("USD", 92 / 100), ("GBP", 117 / 100), ("JPY", 61 / 10000),
   ("CHF", 105 / 100), ("CAD", 68 / 100), ("AUD", 60 / 100),
   ("SEK", 87 / 1000), ("NOK", 84 / 1000), ("DKK", 13 / 100),
   ("PLN", 23 / 100), ("CZK", 40 / 1000)]

/-- Dict lookup on a rate table. -/
def rateLookup (rates : List (String × ℚ)) (code : String) : Option ℚ :=
  (rates.find? (fun p => p.1 = code)).map (·.2)

/-- `FXConverter.convert` (`fx.py` lines 123-173), with the loaded rate table
`rates` (`self._rates` after `_ensure_rates_loaded`) passed in explicitly.
A raised `ValueError` is an `Except.error`.  `if not rate:` on the fallback
lookup is truthiness, so a zero fallback rate also raises. -/
def convert (rates : List (String × ℚ)) (amount : ℚ)
    (from_currency to_currency : String) : Except String ℚ :=
  let fc := strUpper from_currency
  let tc := strUpper to_currency
  if fc = tc then .ok amount
  else
    let rate? : Option ℚ :=
      match rateLookup rates fc with
      | none =>
        match rateLookup FALLBACK_RATES fc with
        | some r => if r ≠ 0 then some r else none
        | none => none
      | some r => some r
    match rate? with
    | none => .error ("Unknown currency: " ++ fc)
    | some rate =>
      let eur_amount := amount * rate
      if tc = "EUR" then .ok (quantize2 eur_amount)
      else
        match rateLookup rates tc with
        | none => .error ("Unknown currency: " ++ tc)
        | some to_rate_inv =>
          let to_rate := 1 / to_rate_inv
          .ok (quantize2 (eur_amount * to_rate))

/-! ## Cache (`cache.py`)

The SQLite table keyed by the primary key `(namespace, key_hash)` is modelled
as a partial map; wall-clock `time.time()` instants are rationals passed in
explicitly.  The JSON round trip (`json.dumps` on `set`, `json.loads` on
`get`) is the identity on the JSON-serializable values the callers store, so
values are kept as an arbitrary type `V`.  `_hash_key` (SHA-256) is passed in
as `hash`; every property proved below only touches a single key, so nothing
depends on its behaviour. -/

/-- One row of the `cache` table (`cache.py` lines 33-44). -/
structure CacheEntry (V : Type) where
  key_raw : String
  value : V
  created_at : ℚ
  expires_at : ℚ
  hit_count : Nat

/-- The cache table: `(namespace, key_hash)` to row. -/
def CacheState (V : Type) := String × String → Option (CacheEntry V)

/-- `PriceCache.DEFAULT_TTL_HOURS` (`cache.py` line 23). -/
def DEFAULT_TTL_HOURS : ℚ := 24 * 7

/-- `PriceCache.set` (`cache.py` lines 109-139): an `INSERT OR REPLACE` on the
primary key, with `expires_at = now + ttl_hours * 3600` and the hit counter
reset to zero. -/
def cache_set {V : Type} (hash : String → String) (s : CacheState V)
    (ns key : String) (value : V) (ttl_hours : Option ℚ) (now : ℚ) :
    CacheState V :=
  let ttl := ttl_hours.getD DEFAULT_TTL_HOURS
  fun p =>
    if p = (ns, hash key) then
      some { key_raw := key, value := value, created_at := now,
             expires_at := now + ttl * 3600, hit_count := 0 }
    else s p

/-- `PriceCache.get` (`cache.py` lines 69-107): the row is visible only while
`expires_at > now`; a hit also increments the row's hit counter.  Returns the
value (or `none`) together with the updated table. -/
def cache_get {V : Type} (hash : String → String) (s : CacheState V)
    (ns key : String) (now : ℚ) : Option V × CacheState V :=
  match s (ns, hash key) with
  | some e =>
    if e.expires_at > now then
      (some e.value,
       fun p =>
         if p = (ns, hash key) then
           some { e with hit_count := e.hit_count + 1 }
         else s p)
    else (none, s)
  | none => (none, s)

/-! ## Shared rate limiter (`sources/rgp.py` lines 68-132)

`RGPClient._rate_limit` runs its body inside the single process-wide
`asyncio.Lock`, so its executions are serialized; one execution is modelled as
a step on the shared `_global_last_request_time` state.  Logical time: `now`
is the `time.monotonic()` reading taken after the lock is acquired, and
`asyncio.sleep(d)` completes exactly `d` seconds later, which is when
`time.monotonic()` is read again to update the shared timestamp.  The step
returns (completion instant, new shared timestamp). -/

/-- One serialized execution of `RGPClient._rate_limit`
(`sources/rgp.py` lines 105-132). -/
def rate_limit_step (interval last now : ℚ) : ℚ × ℚ :=
  if last = 0 then (now, now)
  else
    let elapsed := now - last
    if elapsed < interval then
      let fin := now + (interval - elapsed)
      (fin, fin)
    else (now, now)

/-- The completion instants of a sequence of serialized `_rate_limit` calls,
given the shared timestamp `last` and the lock-acquisition instants of the
calls in order. -/
def rate_limit_trace (interval : ℚ) : ℚ → List ℚ → List ℚ
  | _, [] => []
  | last, now :: rest =>
    let s := rate_limit_step interval last now
    s.1 :: rate_limit_trace interval s.2 rest

/-! ## Catalog price selection (`sources/rgp.py`) -/

/-- The price dict accumulated by `RGPClient._parse_game_page`
(`sources/rgp.py` lines 638-748), with the six fixed tier keys it may
populate; a parsed `$0` amount passes the `< 50000` sanity check of the regex
pass and is stored, so zero values do occur. -/
structure ParsedPrices where
  loose_price : Option ℚ := none
  cib_price : Option ℚ := none
  item_box_price : Option ℚ := none
  item_manual_price : Option ℚ := none
  box_only_price : Option ℚ := none
  manual_only_price : Option ℚ := none
deriving DecidableEq, Repr

/-- The second component of `_select_price_for_item`'s return value.  The
declared return type is `tuple[Decimal | None, str]`, but the conditional
expressions at `sources/rgp.py` lines 816 and 827 parse as
`return loose, (STR if loose else (None, STR))`, so at runtime the second
component is sometimes a nested `(None, str)` tuple — `tup` below.  Dynamic
f-string descriptions interpolate `Decimal` amounts whose exact textual form
the ℚ model does not preserve, so they are kept as a format label plus the
interpolated amounts (`fmt`). -/
inductive SelectDetail
  | lit : String → SelectDetail
  | fmt : String → List ℚ → SelectDetail
  | tup : Option ℚ × String → SelectDetail
deriving DecidableEq, Repr

/-- `RGPClient._select_price_for_item` (`sources/rgp.py` lines 750-840).
Every `if price:` test is Python truthiness, so a stored zero price is treated
like a missing one. -/
def select_price_for_item (item : GameItem) (prices : ParsedPrices) :
    Option ℚ × SelectDetail :=
  let has_game := item.has_game = some "Y"
  let has_box := item.has_box = some "Y"
  let has_manual := item.has_manual = some "Y"
  let loose := prices.loose_price
  let cib := prices.cib_price
  let item_box := prices.item_box_price
  let item_manual := prices.item_manual_price
  let box_only := prices.box_only_price
  let manual_only := prices.manual_only_price
  -- Case 1: No game - just accessories
  if ¬ has_game then
    if has_box ∧ has_manual then
      if optTruthy box_only && optTruthy manual_only then
        (some (box_only.getD 0 + manual_only.getD 0),
         .fmt "Box Only + Manual Only" [box_only.getD 0, manual_only.getD 0])
      else (none, .lit "Box + Manual only (no prices available)")
    else if has_box then
      if optTruthy box_only then (box_only, .lit "Box Only")
      else (none, .lit "Box only (no price available)")
    else if has_manual then
      if optTruthy manual_only then (manual_only, .lit "Manual Only")
      else (none, .lit "Manual only (no price available)")
    else (none, .lit "No components")
  -- Case 2: Complete In Box (Game + Box + Manual)
  else if has_game ∧ has_box ∧ has_manual then
    if optTruthy cib then (cib, .lit "Complete (CIB)")
    else if optTruthy loose && optTruthy box_only && optTruthy manual_only then
      (some (loose.getD 0 + box_only.getD 0 + manual_only.getD 0),
       .fmt "Calculated CIB (Loose + Box + Manual)"
         [loose.getD 0, box_only.getD 0, manual_only.getD 0])
    else if optTruthy item_box && optTruthy manual_only then
      (some (item_box.getD 0 + manual_only.getD 0),
       .fmt "Calculated CIB (Item&Box + Manual)"
         [item_box.getD 0, manual_only.getD 0])
    else (none, .lit "CIB (no price available)")
  -- Case 3: Game + Box (no manual)
  else if has_game ∧ has_box ∧ ¬ has_manual then
    if optTruthy item_box then (item_box, .lit "Item & Box")
    else if optTruthy loose && optTruthy box_only then
      (some (loose.getD 0 + box_only.getD 0),
       .fmt "Calculated Item&Box (Loose + Box)" [loose.getD 0, box_only.getD 0])
    else if optTruthy cib then (cib, .lit "CIB (used as estimate for Item & Box)")
    else
      -- line 816: `return loose, "Loose (Box value unknown)" if loose else
      -- (None, "Item & Box (no price available)")`
      (loose,
       if optTruthy loose then .lit "Loose (Box value unknown)"
       else .tup (none, "Item & Box (no price available)"))
  -- Case 4: Game + Manual (no box)
  else if has_game ∧ has_manual ∧ ¬ has_box then
    if optTruthy item_manual then (item_manual, .lit "Item & Manual")
    else if optTruthy loose && optTruthy manual_only then
      (some (loose.getD 0 + manual_only.getD 0),
       .fmt "Calculated Item&Manual (Loose + Manual)"
         [loose.getD 0, manual_only.getD 0])
    else
      -- line 827: the same conditional-expression shape as line 816
      (loose,
       if optTruthy loose then .lit "Loose (Manual value unknown)"
       else .tup (none, "Item & Manual (no price available)"))
  -- Case 5: Game only (Loose)
  else if has_game ∧ ¬ has_box ∧ ¬ has_manual then
    if optTruthy loose then (loose, .lit "Loose")
    else (none, .lit "Loose (no price available)")
  -- Default fallback
  else
    if optTruthy loose then (loose, .lit "Loose (fallback)")
    else if optTruthy cib then (cib, .lit "CIB (fallback)")
    else (none, .lit "No price available")

/-! ## Catalog title cleaning and similarity (`sources/rgp.py` lines 170-186
and 445-486)

`_clean_title_for_search` applies two `re.sub` passes and a character filter.
The regex passes are reproduced over character lists with Python's leftmost,
non-overlapping `re.sub` semantics. -/

/-- The edition-marker alternation of the first `re.sub` pattern
(`sources/rgp.py` line 179), lowercase for the case-insensitive match. -/
def editionKeywords : List String :=
  ["loose", "edition", "platinum", "essentials", "classics", "best seller",
   "demo", "rpg"]

/-- Remove trailing whitespace from a character list. -/
def dropTrailingWs (cs : List Char) : List Char :=
  (cs.reverse.dropWhile Char.isWhitespace).reverse

/-- Match the pattern `\s*\([^)]*(?:KEYWORD)\s*\)` (case-insensitive) at the
start of the list: optional whitespace, an opening parenthesis, content up to
the next closing parenthesis that — after trailing whitespace — ends with an
edition keyword.  Returns the suffix after the closing parenthesis on a
match. -/
def matchEditionParen (cs : List Char) : Option (List Char) :=
  let ws := cs.takeWhile Char.isWhitespace
  match cs.drop ws.length with
  | '(' :: afterParen =>
    let inner := afterParen.takeWhile (fun c => c ≠ ')')
    match afterParen.drop inner.length with
    | ')' :: tail =>
      let innerTrim := (dropTrailingWs inner).map Char.toLower
      if editionKeywords.any (fun kw => decide (kw.data <:+ innerTrim)) then
        some tail
      else none
    | _ => none
  | _ => none

/-- Global leftmost `re.sub` of the edition-marker pattern with `""`: scan
left to right, drop each match, emit unmatched characters.  The fuel argument
(one unit per consumed character) bounds the recursion; a match always
consumes at least the two parenthesis characters. -/
def subEditionGo : Nat → List Char → List Char
  | 0, cs => cs
  | _ + 1, [] => []
  | fuel + 1, c :: cs =>
    match matchEditionParen (c :: cs) with
    | some tail => subEditionGo fuel tail
    | none => c :: subEditionGo fuel cs

/-- The first `re.sub` pass of `_clean_title_for_search`
(`sources/rgp.py` line 179). -/
def subEdition (cs : List Char) : List Char :=
  subEditionGo cs.length cs

/-- The second `re.sub` pass, `\s*\([^)]*\)\s*$` (`sources/rgp.py` line 181):
remove one trailing parenthetical (with the whitespace around it) whose
closing parenthesis — the last one of the string — is reached from its opening
parenthesis without crossing another closing parenthesis; the leftmost viable
opening parenthesis wins. -/
def stripTrailingParen (cs : List Char) : List Char :=
  let t := dropTrailingWs cs
  if t.getLast? = some ')' then
    let body := t.dropLast
    let seg := (body.reverse.takeWhile (fun c => c ≠ ')')).reverse
    let pre := body.take (body.length - seg.length)
    match seg.findIdx? (fun c => c = '(') with
    | some k => dropTrailingWs (pre ++ seg.take k)
    | none => cs
  else cs

/-- The character class kept by the third pass, `[^\w\s'-]` replaced by a
space (`sources/rgp.py` line 183), with the ASCII reading of `\w`.
`Char.ofNat 39` is the apostrophe character. -/
def keepCleanChar (c : Char) : Bool :=
  c.isAlphanum || c = '_' || c.isWhitespace || c = Char.ofNat 39 || c = '-'

/-- `' '.join(s.split())`: collapse whitespace runs to single spaces and strip
the ends (`sources/rgp.py` line 185). -/
def collapseSpaces (s : String) : String :=
  String.mk (joinWordsGo (wordsGo s.data.length s.data))

/-- `RGPClient._clean_title_for_search` (`sources/rgp.py` lines 170-186). -/
def clean_title_for_search (title : String) : String :=
  let s1 := String.mk (subEdition title.data)
  let s2 := String.mk (stripTrailingParen s1.data)
  let s3 := String.mk (s2.data.map (fun c => if keepCleanChar c then c else ' '))
  collapseSpaces s3

/-- The normalized form both titles are put in by
`_calculate_title_similarity` (`sources/rgp.py` lines 452-453):
`_clean_title_for_search(·).lower()`. -/
def normalizedTitle (t : String) : String :=
  strLower (clean_title_for_search t)

/-- `set(s.split())`: the word set of an (already normalized) title
(`sources/rgp.py` lines 467-468). -/
def wordSet (t : String) : Finset String :=
  (pyWords t).toFinset

/-- `RGPClient._calculate_title_similarity` (`sources/rgp.py` lines 445-486),
with the float score as an exact rational. -/
def calculate_title_similarity (search_title result_title : String) : ℚ :=
  let search_clean := normalizedTitle search_title
  let result_clean := normalizedTitle result_title
  -- Exact match
  if search_clean = result_clean then 1
  -- One contains the other (Python substring containment `in`)
  else if decide (search_clean.data <:+: result_clean.data)
      || decide (result_clean.data <:+: search_clean.data) then
    let shorter := min search_clean.length result_clean.length
    let longer := max search_clean.length result_clean.length
    if longer > 0 then 4 / 5 + 1 / 5 * (shorter : ℚ) / (longer : ℚ) else 4 / 5
  -- Word-based matching
  else
    let search_words := wordSet search_clean
    let result_words := wordSet result_clean
    let search_sig0 := search_words.filter (fun w => w.length > 2)
    let result_sig := result_words.filter (fun w => w.length > 2)
    let search_sig := if search_sig0 = ∅ then search_words else search_sig0
    let common := search_sig ∩ result_sig
    if common = ∅ then 0
    else
      let coverage : ℚ :=
        if search_sig ≠ ∅ then (common.card : ℚ) / (search_sig.card : ℚ) else 0
      min (7 / 10) (coverage * (7 / 10))

/-! ## eBay result filtering (`utils.py`) and search (`sources/ebay.py`) -/

/-- `Region.value` (the string value of the `str`-enum in `models.py`). -/
def Region.value : Region → String
  | .PAL => "PAL"
  | .NTSC_U => "NTSC-U"
  | .NTSC_J => "NTSC-J"

/-- Python substring containment `needle in haystack`. -/
def strContains (haystack needle : String) : Bool :=
  decide (needle.data <:+: haystack.data)

/-- `title_contains_region` (`utils.py` lines 214-232). -/
def title_contains_region (title : String) (region : Region) : Bool :=
  let tl := strLower title
  match region with
  | .PAL =>
    ["pal", "european", "europe", "uk version", "eur"].any
      (fun ind => strContains tl ind)
  | .NTSC_U =>
    ["ntsc", "usa", "us version", "north america", "american"].any
      (fun ind => strContains tl ind)
  | .NTSC_J =>
    ["ntsc-j", "japan", "japanese", "jap", "jp"].any
      (fun ind => strContains tl ind)

/-- `title_contains_region_strict` (`utils.py` lines 235-257). -/
def title_contains_region_strict (title : String) (region : Region) : Bool :=
  let tl := strLower title
  let has_pal := ["pal", "european", "europe"].any (fun ind => strContains tl ind)
  let has_ntsc_u :=
    ["ntsc-u", "usa", "us version", "american"].any (fun ind => strContains tl ind)
  let has_ntsc_j :=
    ["ntsc-j", "japan", "japanese", "jap"].any (fun ind => strContains tl ind)
  match region with
  | .PAL => has_pal && !has_ntsc_u && !has_ntsc_j
  | .NTSC_U => has_ntsc_u && !has_pal && !has_ntsc_j
  | .NTSC_J => has_ntsc_j && !has_pal && !has_ntsc_u

/-- `is_lot_or_bundle` (`utils.py` lines 260-264). -/
def is_lot_or_bundle (title : String) : Bool :=
  let tl := strLower title
  ["lot of", "bundle", "job lot", "bulk", " x ", "collection of", "set of"].any
    (fun ind => strContains tl ind)

/-- `is_box_or_manual_only` (`utils.py` lines 267-282). -/
def is_box_or_manual_only (title : String) : Bool :=
  let tl := strLower title
  ["box only", "case only", "manual only", "empty box", "replacement case",
   "no game", "no cartridge", "no disc", "artwork only", "cover only"].any
    (fun ind => strContains tl ind)

/-- `filter_listing` (`utils.py` lines 285-314): (passed, rejection reason). -/
def filter_listing (title : String) (region : Region)
    (strict_region allow_lots allow_box_only : Bool) : Bool × String :=
  if ¬ allow_lots ∧ is_lot_or_bundle title then (false, "lot/bundle")
  else if ¬ allow_box_only ∧ is_box_or_manual_only title then
    (false, "box/manual only")
  else if strict_region ∧ ¬ title_contains_region_strict title region
      ∧ ¬ title_contains_region title region then
    (false, "region mismatch (want " ++ region.value ++ ")")
  else (true, "")

/-- `normalize_currency_code` (`fx.py` lines 190-215). -/
def normalize_currency_code (code : String) : String :=
  let c := strUpper (strTrim code)
  let symbol_map : List (String × String) :=
    [("$", "USD"), ("£", "GBP"), ("€", "EUR"), ("¥", "JPY"), ("US$", "USD"),
     ("US DOLLAR", "USD"), ("DOLLAR", "USD"), ("EURO", "EUR"),
     ("POUND", "GBP"), ("YEN", "JPY")]
  ((symbol_map.find? (fun p => p.1 = c)).map (·.2)).getD c

/-- One raw item dict as produced by `EbayClient._parse_item`
(`sources/ebay.py` lines 155-213); the `end_time` timestamp only feeds the
human-readable details text and is not modelled.  `_parse_item` defaults
`shipping_currency` to the price currency. -/
structure RawItem where
  title : String
  price : ℚ
  currency : String
  url : String := ""
  condition : String := ""
  shipping_cost : Option ℚ := none
  shipping_currency : String := ""
deriving DecidableEq, Repr

/-- `EbayClient._convert_item_prices` for a single raw item
(`sources/ebay.py` lines 215-248); `conv` stands for
`fx_converter.convert_to_eur`, which can raise `ValueError` on an unknown
currency (`fx.py` line 154) — a raised message is an `Except.error`.  The
price is converted first, then the shipping cost when `include_shipping` is
set and the cost is truthy. -/
def convert_item_price (conv : ℚ → String → Except String ℚ)
    (include_shipping : Bool) (it : RawItem) : Except String SoldListing := do
  let price_eur ← conv it.price (normalize_currency_code it.currency)
  let shipping_eur ←
    if include_shipping ∧ optTruthy it.shipping_cost then
      (conv (it.shipping_cost.getD 0)
        (normalize_currency_code it.shipping_currency)).map some
    else pure none
  pure { title := it.title, price := it.price, currency := it.currency,
         condition := it.condition, url := it.url,
         shipping_cost := it.shipping_cost,
         price_eur := some price_eur, shipping_eur := shipping_eur }

/-- The inner filtering loop of `search_sold_listings`
(`sources/ebay.py` lines 351-367): append each raw item that passes
`filter_listing`, converted, and break once `max_results` listings are
accumulated.  The per-strategy `try` spans this loop, so a conversion that
raises ends the strategy mid-accumulation: listings appended before the raise
are kept (the accumulator is the outer `filtered_listings` list) and the
exception message is returned alongside. -/
def collect_filtered (conv : ℚ → String → Except String ℚ)
    (include_shipping : Bool)
    (region : Region) (strict_region allow_lots allow_box_only : Bool)
    (max_results : Nat) :
    List RawItem → List SoldListing → List SoldListing × Option String
  | [], acc => (acc, none)
  | r :: rs, acc =>
    if (filter_listing r.title region strict_region allow_lots allow_box_only).1 then
      match convert_item_price conv include_shipping r with
      | .error e => (acc, some e)
      | .ok listing =>
        let acc2 := acc ++ [listing]
        if max_results ≤ acc2.length then (acc2, none)
        else collect_filtered conv include_shipping region strict_region
          allow_lots allow_box_only max_results rs acc2
    else collect_filtered conv include_shipping region strict_region
      allow_lots allow_box_only max_results rs acc

/-- The strategy loop of `search_sold_listings`
(`sources/ebay.py` lines 322-378), over (strategy name, fetched raw items or
raised fetch-exception message) pairs.  An exception — at fetch/parse time or
from a conversion inside the filter loop — records its message in
`result.error` and moves on to the next strategy, keeping whatever was
accumulated (`except … continue`, which also skips the `strategy_used`
update); reaching `max_results` breaks with the current strategy recorded;
otherwise a strategy that completed with anything accumulated so far records
its name.  Returns (accumulated filtered listings, `strategy_used`, leftover
`result.error`). -/
def run_strategies (conv : ℚ → String → Except String ℚ)
    (include_shipping : Bool)
    (region : Region) (strict_region allow_lots allow_box_only : Bool)
    (max_results : Nat) :
    List (String × Except String (List RawItem)) →
    List SoldListing → String → String → List SoldListing × String × String
  | [], acc, used, err => (acc, used, err)
  | (strategyName, outcome) :: rest, acc, used, err =>
    match outcome with
    | .error e =>
      run_strategies conv include_shipping region strict_region allow_lots
        allow_box_only max_results rest acc used e
    | .ok raws =>
      match collect_filtered conv include_shipping region strict_region
        allow_lots allow_box_only max_results raws acc with
      | (acc2, some e) =>
        run_strategies conv include_shipping region strict_region allow_lots
          allow_box_only max_results rest acc2 used e
      | (acc2, none) =>
        if max_results ≤ acc2.length then (acc2, strategyName, err)
        else
          let used2 := if 0 < acc2.length then strategyName else used
          run_strategies conv include_shipping region strict_region allow_lots
            allow_box_only max_results rest acc2 used2 err

/-- `EbayClient.search_sold_listings` on a cache miss
(`sources/ebay.py` lines 250-443).  The three per-strategy API round trips
(query building, HTTP, XML parsing) are passed in as `fStrict`,
`fRelaxedLanguage`, `fRelaxedPackaging`: the parsed raw item list, or the
message of an exception raised before the filter loop.  `conv` is the
(fallible) FX conversion.  The human-readable success details block and the
cache write are not modelled. -/
def search_sold_listings (item : GameItem)
    (strict_region allow_lots allow_box_only include_shipping : Bool)
    (max_results : Nat)
    (fStrict fRelaxedLanguage fRelaxedPackaging : Except String (List RawItem))
    (conv : ℚ → String → Except String ℚ) : PriceResult :=
  let strategies := [("strict", fStrict), ("relaxed_language", fRelaxedLanguage),
    ("relaxed_packaging", fRelaxedPackaging)]
  let out := run_strategies conv include_shipping item.region strict_region
    allow_lots allow_box_only max_results strategies [] "none" ""
  let filtered := out.1
  if filtered ≠ [] then
    let accepted := filtered.take max_results
    let total := (accepted.filter (fun l => optTruthy l.price_eur)).foldl
      (fun s l =>
        s + (if include_shipping ∧ optTruthy l.total_eur then l.total_eur.getD 0
             else l.price_eur.getD 0)) 0
    let price := if accepted ≠ [] then some (total / (accepted.length : ℚ))
      else none
    { source := .EBAY, success := true, price_eur := price,
      listings := accepted, num_results := accepted.length,
      strategy_used := out.2.1, error := out.2.2 }
  else
    { source := .EBAY, success := false,
      error := "No matching sold listings found after filtering",
      details := "eBay: No results found for " ++ item.title ++ " ("
        ++ item.platform ++ ", " ++ item.region.value ++ ")" }

/-- The first raw item of a strategy's result list that passes
`filter_listing` — the first listing the filter loop attempts to convert. -/
def first_passing (region : Region) (strict_region allow_lots allow_box_only : Bool)
    (raws : List RawItem) : Option RawItem :=
  raws.find?
    (fun r => (filter_listing r.title region strict_region allow_lots
      allow_box_only).1)

/-- A strategy's filter loop accumulates at least one listing when started
from an empty accumulator: its first filter-passing raw item exists and
converts without raising.  (A raise on that first passing item aborts the
strategy before anything is appended; conversions of later items only decide
how much more is accumulated.) -/
def strategy_yields (conv : ℚ → String → Except String ℚ)
    (include_shipping : Bool) (region : Region)
    (strict_region allow_lots allow_box_only : Bool)
    (raws : List RawItem) : Prop :=
  ∃ x, first_passing region strict_region allow_lots allow_box_only raws = some x
    ∧ ∃ l, convert_item_price conv include_shipping x = .ok l

/-! # Theorems -/

/-- `quantize2` always lands on an integer number of cents. -/
theorem quantize2_is_cents (q : ℚ) : ∃ n : ℤ, quantize2 q = (n : ℚ) / 100 := by
  unfold quantize2
  split <;> exact ⟨_, rfl⟩

/-- Evaluation helper for `quantize2` on nonnegative inputs. -/
theorem quantize2_eq_of_bounds (q : ℚ) (n : ℤ) (h0 : 0 ≤ q)
    (h1 : (n : ℚ) ≤ q * 100 + 1 / 2) (h2 : q * 100 + 1 / 2 < n + 1) :
    quantize2 q = (n : ℚ) / 100 := by
  unfold quantize2
  rw [if_neg (not_lt.mpr h0), Int.floor_eq_iff.mpr ⟨h1, h2⟩]

/-! ## C1: weighted combination of the two source results -/

/-- C1 (corrected): the combination step treats a per-source price through
Python truthiness.  When both results succeeded with a present nonzero price,
it returns the weighted sum rounded half-up to 2 decimals; when exactly one
result carries a present nonzero price, that price rounded to 2 decimals; when
neither does, no estimate — and `enrich_item`'s overall success flag is
exactly "an estimate exists". -/
theorem weighted_average_combination (we wr : ℚ) (e r : Option PriceResult) :
    (∀ pe pr, successPrice e = some pe → pe ≠ 0 →
        successPrice r = some pr → pr ≠ 0 →
        calculate_weighted_average we wr e r
          = some (quantize2 (pe * we + pr * wr)))
    ∧ (∀ pe, successPrice e = some pe → pe ≠ 0 →
        optTruthy (successPrice r) = false →
        calculate_weighted_average we wr e r = some (quantize2 pe))
    ∧ (∀ pr, optTruthy (successPrice e) = false →
        successPrice r = some pr → pr ≠ 0 →
        calculate_weighted_average we wr e r = some (quantize2 pr))
    ∧ (optTruthy (successPrice e) = false →
        optTruthy (successPrice r) = false →
        calculate_weighted_average we wr e r = none)
    ∧ (∀ cfg item el rl conv,
        (enrich_item cfg item el rl conv).success
          = (enrich_item cfg item el rl conv).final_estimate_eur.isSome) := by
  refine ⟨?_, ?_, ?_, ?_, ?_⟩
  · intro pe pr hpe hpe0 hpr hpr0
    have h1 : optTruthy (some pe) = true := by simp [optTruthy, hpe0]
    have h2 : optTruthy (some pr) = true := by simp [optTruthy, hpr0]
    simp [calculate_weighted_average, hpe, hpr, h1, h2]
  · intro pe hpe hpe0 hr
    have h1 : optTruthy (some pe) = true := by simp [optTruthy, hpe0]
    simp [calculate_weighted_average, hpe, h1, hr]
  · intro pr he hpr hpr0
    have h2 : optTruthy (some pr) = true := by simp [optTruthy, hpr0]
    simp [calculate_weighted_average, he, hpr, h2]
  · intro he hr
    simp [calculate_weighted_average, he, hr]
  · intro cfg item el rl conv
    unfold enrich_item
    split
    · rfl
    · rfl

/-- Witness for C1, including the spec's worked example: an auction price of
100.00 at weight 0.7 with a catalog price of 50.00 at weight 0.3 yields a
final estimate of 85.00, and two failed results yield no estimate. -/
theorem weighted_average_combination_witness :
    calculate_weighted_average (7 / 10) (3 / 10)
        (some { source := .EBAY, success := true, price_eur := some 100 })
        (some { source := .RETROGAMEPRICES, success := true, price_eur := some 50 })
      = some 85
    ∧ calculate_weighted_average (7 / 10) (3 / 10)
        (some { source := .EBAY, success := false })
        (some { source := .RETROGAMEPRICES, success := false })
      = none := by
  constructor
  · have h := (weighted_average_combination (7 / 10) (3 / 10)
      (some { source := .EBAY, success := true, price_eur := some 100 })
      (some { source := .RETROGAMEPRICES, success := true, price_eur := some 50 })).1
      100 50 rfl (by norm_num) rfl (by norm_num)
    rw [h, quantize2_eq_of_bounds (100 * (7 / 10) + 50 * (3 / 10)) 8500
      (by norm_num) (by norm_num) (by norm_num)]
    norm_num
  · exact (weighted_average_combination (7 / 10) (3 / 10)
      (some { source := .EBAY, success := false })
      (some { source := .RETROGAMEPRICES, success := false })).2.2.2.1
      rfl rfl

/-- C1 counterexample: both sources succeeded, the auction price is the
present value 0 and the catalog price 50 at weights 0.7/0.3.  The claimed
weighted sum is 15.00, but Python truthiness on the zero auction price makes
the code return the catalog price alone, 50.00. -/
theorem weighted_average_zero_price_counterexample :
    calculate_weighted_average (7 / 10) (3 / 10)
        (some { source := .EBAY, success := true, price_eur := some 0 })
        (some { source := .RETROGAMEPRICES, success := true, price_eur := some 50 })
      = some 50
    ∧ quantize2 (0 * (7 / 10) + 50 * (3 / 10)) = 15
    ∧ (50 : ℚ) ≠ 15 := by
  refine ⟨?_, ?_, by norm_num⟩
  · show calculate_weighted_average _ _ _ _ = some 50
    simp only [calculate_weighted_average, successPrice, optTruthy]
    norm_num
    rw [quantize2_eq_of_bounds 50 5000 (by norm_num) (by norm_num) (by norm_num)]
    norm_num
  · rw [quantize2_eq_of_bounds (0 * (7 / 10) + 50 * (3 / 10)) 1500
      (by norm_num) (by norm_num) (by norm_num)]
    norm_num

/-! ## C3 and C4: catalog price selection by physical completeness -/

/-- C3 (corrected): for an item with game, box and manual all present, the
selection prefers the parsed CIB price when it is present *and nonzero*
(Python truthiness), labelled "Complete (CIB)"; otherwise it sums
loose + box-only + manual-only when all three are present and nonzero, else
item-and-box + manual-only when both are present and nonzero, else reports no
price. -/
theorem select_price_cib_case (item : GameItem) (prices : ParsedPrices)
    (hg : item.has_game = some "Y") (hb : item.has_box = some "Y")
    (hm : item.has_manual = some "Y") :
    (∀ c, prices.cib_price = some c → c ≠ 0 →
        select_price_for_item item prices = (some c, .lit "Complete (CIB)"))
    ∧ (optTruthy prices.cib_price = false →
        ∀ l b m, prices.loose_price = some l → l ≠ 0 →
          prices.box_only_price = some b → b ≠ 0 →
          prices.manual_only_price = some m → m ≠ 0 →
          select_price_for_item item prices
            = (some (l + b + m),
               .fmt "Calculated CIB (Loose + Box + Manual)" [l, b, m]))
    ∧ (optTruthy prices.cib_price = false →
        (optTruthy prices.loose_price = false
          ∨ optTruthy prices.box_only_price = false
          ∨ optTruthy prices.manual_only_price = false) →
        ∀ ib m, prices.item_box_price = some ib → ib ≠ 0 →
          prices.manual_only_price = some m → m ≠ 0 →
          select_price_for_item item prices
            = (some (ib + m), .fmt "Calculated CIB (Item&Box + Manual)" [ib, m]))
    ∧ (optTruthy prices.cib_price = false →
        (optTruthy prices.loose_price = false
          ∨ optTruthy prices.box_only_price = false
          ∨ optTruthy prices.manual_only_price = false) →
        (optTruthy prices.item_box_price = false
          ∨ optTruthy prices.manual_only_price = false) →
        select_price_for_item item prices
          = (none, .lit "CIB (no price available)")) := by
  refine ⟨?_, ?_, ?_, ?_⟩
  · intro c hc hc0
    have hc' : optTruthy (some c) = true := by simp [optTruthy, hc0]
    simp [select_price_for_item, hg, hb, hm, hc, hc']
  · intro hcib l b m hl hl0 hbo hb0 hmo hm0
    have hl' : optTruthy (some l) = true := by simp [optTruthy, hl0]
    have hb' : optTruthy (some b) = true := by simp [optTruthy, hb0]
    have hm' : optTruthy (some m) = true := by simp [optTruthy, hm0]
    simp [select_price_for_item, hg, hb, hm, hcib, hl, hbo, hmo, hl', hb', hm']
  · intro hcib hfall ib m hib hib0 hmo hm0
    have hib' : optTruthy (some ib) = true := by simp [optTruthy, hib0]
    have hm' : optTruthy (some m) = true := by simp [optTruthy, hm0]
    have hno : optTruthy prices.loose_price = false
        ∨ optTruthy prices.box_only_price = false := by
      rcases hfall with h | h | h
      · exact Or.inl h
      · exact Or.inr h
      · rw [hmo] at h; rw [h] at hm'; exact absurd hm' (by simp)
    rcases hno with h | h <;>
      simp [select_price_for_item, hg, hb, hm, hcib, h, hib, hmo, hib', hm']
  · intro hcib hfall hfall2
    rcases hfall with h | h | h <;> rcases hfall2 with h2 | h2 <;>
      simp [select_price_for_item, hg, hb, hm, hcib, h, h2]

/-- Witness for C3 at the concrete inputs of the repository's own test
(`test_select_price_cib`): CIB price 50 is selected and labelled, and with no
usable tier at all the selection reports no price. -/
theorem select_price_cib_case_witness :
    select_price_for_item
        { platform := "Game Boy", title := "Test Game", has_game := some "Y",
          has_box := some "Y", has_manual := some "Y" }
        { loose_price := some 10, cib_price := some 50 }
      = (some 50, .lit "Complete (CIB)")
    ∧ select_price_for_item
        { platform := "Game Boy", title := "Test Game", has_game := some "Y",
          has_box := some "Y", has_manual := some "Y" }
        { loose_price := some 10 }
      = (none, .lit "CIB (no price available)") := by
  constructor
  · exact (select_price_cib_case
      { platform := "Game Boy", title := "Test Game", has_game := some "Y",
        has_box := some "Y", has_manual := some "Y" }
      { loose_price := some 10, cib_price := some 50 }
      rfl rfl rfl).1 50 rfl (by decide)
  · exact (select_price_cib_case
      { platform := "Game Boy", title := "Test Game", has_game := some "Y",
        has_box := some "Y", has_manual := some "Y" }
      { loose_price := some 10 }
      rfl rfl rfl).2.2.2 (by decide) (by decide) (by decide)

/-- C3 counterexample: a parsed price dictionary can hold a present CIB price
of 0 (the regex pass stores any amount under the 50000 sanity ceiling).  The
claim then demands that exact CIB price, but the code's truthiness test skips
it and sums the components instead. -/
theorem select_price_cib_zero_counterexample :
    (ParsedPrices.cib_price
        { cib_price := some 0, loose_price := some 10, box_only_price := some 5,
          manual_only_price := some 2 }) = some 0
    ∧ select_price_for_item
        { platform := "Game Boy", title := "Test Game", has_game := some "Y",
          has_box := some "Y", has_manual := some "Y" }
        { cib_price := some 0, loose_price := some 10, box_only_price := some 5,
          manual_only_price := some 2 }
      = (some 17, .fmt "Calculated CIB (Loose + Box + Manual)" [10, 5, 2])
    ∧ some (17 : ℚ) ≠ some (0 : ℚ) := by
  refine ⟨rfl, ?_, by norm_num⟩
  simp [select_price_for_item, optTruthy]
  norm_num

/-- C4 (code bug): for an item with game and box but no manual and no usable
parsed price, `_select_price_for_item` hits line 816, where the conditional
expression binds tighter than the tuple: the call returns
`(None, (None, "Item & Box (no price available)"))`, whose second component is
a nested tuple, not the descriptive string promised by the function's declared
`tuple[Decimal | None, str]` return type. -/
theorem select_price_item_box_tuple_detail :
    select_price_for_item
        { platform := "Game Boy", title := "Test Game", has_game := some "Y",
          has_box := some "Y", has_manual := some "N" }
        {}
      = (none, .tup (none, "Item & Box (no price available)")) := by
  decide

/-! ## C7: currency converter output quantization -/

/-- C7 (corrected): when the (uppercased) source and target currencies differ,
every successful output of `convert` is quantized to an integer number of
cents; in the same-currency case `convert` returns the amount unchanged —
*without* quantizing it. -/
theorem convert_output_form (rates : List (String × ℚ)) (amount : ℚ)
    (from_currency to_currency : String) (q : ℚ)
    (h : convert rates amount from_currency to_currency = .ok q) :
    (strUpper from_currency = strUpper to_currency → q = amount)
    ∧ (strUpper from_currency ≠ strUpper to_currency →
        ∃ n : ℤ, q = (n : ℚ) / 100) := by
  constructor
  · intro heq
    simp only [convert, heq, eq_self_iff_true, if_true] at h
    injection h with h2
    exact h2.symm
  · intro hne
    simp only [convert] at h
    rw [if_neg hne] at h
    split at h
    · exact absurd h (by simp)
    · split at h
      · rw [Except.ok.injEq] at h
        exact h ▸ quantize2_is_cents _
      · split at h
        · exact absurd h (by simp)
        · rw [Except.ok.injEq] at h
          exact h ▸ quantize2_is_cents _

/-- Evaluation of `convert` on the fallback-rate path into EUR. -/
theorem convert_fallback_eur (rates : List (String × ℚ)) (amount : ℚ)
    (f t : String) (r : ℚ) (hne : strUpper f ≠ strUpper t)
    (hfc : rateLookup rates (strUpper f) = none)
    (hfb : rateLookup FALLBACK_RATES (strUpper f) = some r) (hr : r ≠ 0)
    (ht : strUpper t = "EUR") :
    convert rates amount f t = .ok (quantize2 (amount * r)) := by
  rw [ht] at hne
  simp only [convert, hfc, hfb, ht, hne, hr, ne_eq, not_false_eq_true, if_true,
    if_false, ite_false, ite_true, eq_self_iff_true]

/-- Witness for C7: converting 5 USD to EUR through the fallback table
succeeds and its output is an integer number of cents (namely 4.60). -/
theorem convert_output_form_witness :
    convert [] (5 : ℚ) "USD" "EUR" = .ok (quantize2 (5 * (92 / 100)))
    ∧ (∃ n : ℤ, quantize2 (5 * (92 / 100)) = (n : ℚ) / 100)
    ∧ quantize2 (5 * (92 / 100)) = 46 / 10 := by
  have hc : convert [] (5 : ℚ) "USD" "EUR" = .ok (quantize2 (5 * (92 / 100))) :=
    convert_fallback_eur [] 5 "USD" "EUR" (92 / 100) (by decide) rfl rfl
      (by norm_num) (by decide)
  refine ⟨hc, (convert_output_form [] 5 "USD" "EUR" _ hc).2 (by decide), ?_⟩
  rw [quantize2_eq_of_bounds _ 460 (by norm_num) (by norm_num) (by norm_num)]
  norm_num

/-- C7 counterexample: in the same-currency case `convert` returns the amount
unchanged, so an amount of 1.234 EUR comes back with three decimal places —
it is not quantized to 2 decimals as the claim states for every output. -/
theorem convert_identity_not_quantized :
    convert [] (1234 / 1000 : ℚ) "EUR" "EUR" = .ok (1234 / 1000)
    ∧ ¬ ∃ n : ℤ, (1234 / 1000 : ℚ) = (n : ℚ) / 100 := by
  constructor
  · simp [convert]
  · rintro ⟨n, hn⟩
    have h5 : ((5 * n : ℤ) : ℚ) = ((617 : ℤ) : ℚ) := by push_cast; field_simp at hn; linarith
    have h2 : (5 * n : ℤ) = 617 := Int.cast_injective h5
    omega

/-! ## C10: applying enrichment results back to the items -/

/-- The `result_map` lookup misses exactly when no result has the item's row
index (a later duplicate overwrites an earlier one, so a hit is always some
matching result). -/
theorem enrichment_result_map_eq_none_iff (results : List EnrichmentResult)
    (k : Int) :
    enrichment_result_map results k = none
      ↔ ∀ r ∈ results, r.game.row_index ≠ k := by
  have main : ∀ (rs : List EnrichmentResult) (m : Int → Option EnrichmentResult),
      (rs.foldl (fun m r => fun j => if j = r.game.row_index then some r else m j) m) k
          = none
        ↔ (m k = none ∧ ∀ r ∈ rs, r.game.row_index ≠ k) := by
    intro rs
    induction rs with
    | nil => intro m; simp
    | cons r rs ih =>
      intro m
      simp only [List.foldl_cons, List.mem_cons]
      rw [ih]
      constructor
      · rintro ⟨h1, h2⟩
        by_cases hk : k = r.game.row_index
        · simp [hk] at h1
        · refine ⟨by simpa [hk] using h1, ?_⟩
          intro x hx
          rcases hx with rfl | hx
          · exact fun hh => hk hh.symm
          · exact h2 x hx
      · rintro ⟨h1, h2⟩
        have hk : k ≠ r.game.row_index := fun hh => (h2 r (Or.inl rfl)) hh.symm
        exact ⟨by simp [hk, h1], fun x hx => h2 x (Or.inr hx)⟩
  unfold enrichment_result_map
  rw [main]
  simp

/-- C10 (confirmed): `apply_enrichment_to_items` returns one output item per
input item, in order; each output item agrees with its input item on every
field except `online_estimate_eur` and `calculation_details`; and an item
whose `row_index` matches no result is returned entirely unchanged. -/
theorem apply_enrichment_frame (items : List GameItem)
    (results : List EnrichmentResult) :
    (apply_enrichment_to_items items results).length = items.length
    ∧ ∀ i (hi : i < items.length)
        (ho : i < (apply_enrichment_to_items items results).length),
        (((apply_enrichment_to_items items results).get ⟨i, ho⟩).platform
            = (items.get ⟨i, hi⟩).platform
          ∧ ((apply_enrichment_to_items items results).get ⟨i, ho⟩).title
            = (items.get ⟨i, hi⟩).title
          ∧ ((apply_enrichment_to_items items results).get ⟨i, ho⟩).item_type
            = (items.get ⟨i, hi⟩).item_type
          ∧ ((apply_enrichment_to_items items results).get ⟨i, ho⟩).condition_text
            = (items.get ⟨i, hi⟩).condition_text
          ∧ ((apply_enrichment_to_items items results).get ⟨i, ho⟩).rarity
            = (items.get ⟨i, hi⟩).rarity
          ∧ ((apply_enrichment_to_items items results).get ⟨i, ho⟩).local_estimate_eur
            = (items.get ⟨i, hi⟩).local_estimate_eur
          ∧ ((apply_enrichment_to_items items results).get ⟨i, ho⟩).has_box
            = (items.get ⟨i, hi⟩).has_box
          ∧ ((apply_enrichment_to_items items results).get ⟨i, ho⟩).has_manual
            = (items.get ⟨i, hi⟩).has_manual
          ∧ ((apply_enrichment_to_items items results).get ⟨i, ho⟩).has_insert
            = (items.get ⟨i, hi⟩).has_insert
          ∧ ((apply_enrichment_to_items items results).get ⟨i, ho⟩).has_game
            = (items.get ⟨i, hi⟩).has_game
          ∧ ((apply_enrichment_to_items items results).get ⟨i, ho⟩).notes
            = (items.get ⟨i, hi⟩).notes
          ∧ ((apply_enrichment_to_items items results).get ⟨i, ho⟩).region
            = (items.get ⟨i, hi⟩).region
          ∧ ((apply_enrichment_to_items items results).get ⟨i, ho⟩).row_index
            = (items.get ⟨i, hi⟩).row_index
          ∧ ((apply_enrichment_to_items items results).get ⟨i, ho⟩).raw_data
            = (items.get ⟨i, hi⟩).raw_data)
        ∧ ((∀ r ∈ results, r.game.row_index ≠ (items.get ⟨i, hi⟩).row_index) →
            (apply_enrichment_to_items items results).get ⟨i, ho⟩
              = items.get ⟨i, hi⟩) := by
  constructor
  · simp [apply_enrichment_to_items]
  · intro i hi ho
    have hget : (apply_enrichment_to_items items results).get ⟨i, ho⟩
        = (match enrichment_result_map results (items.get ⟨i, hi⟩).row_index with
           | some r =>
             { items.get ⟨i, hi⟩ with
                online_estimate_eur := r.final_estimate_eur,
                calculation_details := r.calculation_details }
           | none => items.get ⟨i, hi⟩) := by
      simp [apply_enrichment_to_items, List.get_map]
    constructor
    · rw [hget]
      cases h : enrichment_result_map results (items.get ⟨i, hi⟩).row_index <;>
        simp
    · intro hmiss
      rw [hget, (enrichment_result_map_eq_none_iff results _).mpr hmiss]

/-- Witness for C10: one item with no matching result comes back unchanged,
and the output has the input's length. -/
theorem apply_enrichment_frame_witness :
    (apply_enrichment_to_items
        [{ platform := "SNES", title := "Mario", row_index := 5 }] []).length = 1
    ∧ (apply_enrichment_to_items
        [{ platform := "SNES", title := "Mario", row_index := 5 }] []).get
        ⟨0, by simp [apply_enrichment_to_items, enrichment_result_map]⟩
      = { platform := "SNES", title := "Mario", row_index := 5 } := by
  refine ⟨(apply_enrichment_frame
    [{ platform := "SNES", title := "Mario", row_index := 5 }] []).1, ?_⟩
  exact ((apply_enrichment_frame
      [{ platform := "SNES", title := "Mario", row_index := 5 }] []).2 0
      (by norm_num) (by simp [apply_enrichment_to_items, enrichment_result_map])).2
    (by intro r hr; cases hr)

/-! ## C8: cache set/get round trip and TTL -/

/-- C8 (confirmed): after `set(ns, key, v, ttl)` at time `t0`, a `get` at any
time strictly before `t0 + ttl*3600` returns exactly `v`, and a `get` at or
after that expiry returns none; re-setting the same `(namespace, key)`
replaces the value and resets the expiry to the new write time plus the new
TTL. -/
theorem cache_set_get_ttl {V : Type} (hash : String → String) (s : CacheState V)
    (ns key : String) (v : V) (ttl t0 t1 : ℚ) :
    (t1 < t0 + ttl * 3600 →
      (cache_get hash (cache_set hash s ns key v (some ttl) t0) ns key t1).1
        = some v)
    ∧ (t0 + ttl * 3600 ≤ t1 →
      (cache_get hash (cache_set hash s ns key v (some ttl) t0) ns key t1).1
        = none)
    ∧ (∀ (v2 : V) (ttl2 t2 t3 : ℚ),
        (t3 < t2 + ttl2 * 3600 →
          (cache_get hash (cache_set hash (cache_set hash s ns key v (some ttl) t0)
            ns key v2 (some ttl2) t2) ns key t3).1 = some v2)
        ∧ (t2 + ttl2 * 3600 ≤ t3 →
          (cache_get hash (cache_set hash (cache_set hash s ns key v (some ttl) t0)
            ns key v2 (some ttl2) t2) ns key t3).1 = none)) := by
  have hmem : ∀ (st : CacheState V) (vv : V) (tt tn : ℚ),
      (cache_set hash st ns key vv (some tt) tn) (ns, hash key)
        = some { key_raw := key, value := vv, created_at := tn,
                 expires_at := tn + tt * 3600, hit_count := 0 } := by
    intro st vv tt tn
    simp [cache_set]
  refine ⟨?_, ?_, ?_⟩
  · intro h
    simp [cache_get, hmem, h]
  · intro h
    simp [cache_get, hmem, not_lt.mpr h]
  · intro v2 ttl2 t2 t3
    constructor
    · intro h
      simp [cache_get, hmem, h]
    · intro h
      simp [cache_get, hmem, not_lt.mpr h]

/-- Witness for C8: value 37 stored for 2 hours at t=100 is readable at
t=7299, gone at t=7300, and an overwrite with value 99 replaces it. -/
theorem cache_set_get_ttl_witness :
    (cache_get id (cache_set id (fun _ => none) "rgp" "k" (37 : Nat) (some 2) 100)
        "rgp" "k" 7299).1 = some 37
    ∧ (cache_get id (cache_set id (fun _ => none) "rgp" "k" (37 : Nat) (some 2) 100)
        "rgp" "k" 7300).1 = none
    ∧ (cache_get id (cache_set id
          (cache_set id (fun _ => none) "rgp" "k" (37 : Nat) (some 2) 100)
          "rgp" "k" (99 : Nat) (some 1) 7000) "rgp" "k" 8000).1 = some 99 := by
  have h := cache_set_get_ttl (V := Nat) id (fun _ => none) "rgp" "k" 37 2 100
  exact ⟨(cache_set_get_ttl id (fun _ => none) "rgp" "k" 37 2 100 7299).1
      (by norm_num),
    (cache_set_get_ttl id (fun _ => none) "rgp" "k" 37 2 100 7300).2.1
      (by norm_num),
    ((cache_set_get_ttl id (fun _ => none) "rgp" "k" 37 2 100 8000).2.2 99 1
      7000 8000).1 (by norm_num)⟩

/-! ## C9: shared catalog-source rate limiter -/

/-- The serialized rate-limiter trace, started from any positive shared
timestamp, spaces consecutive completions at least `interval` apart. -/
theorem rate_limit_chain (interval : ℚ) (hI : 0 ≤ interval) :
    ∀ (entries : List ℚ) (last : ℚ), 0 < last → (∀ n ∈ entries, 0 < n) →
      List.Chain (fun a b => a + interval ≤ b) last
        (rate_limit_trace interval last entries) := by
  intro entries
  induction entries with
  | nil =>
    intro last _ _
    simp [rate_limit_trace]
  | cons n rest ih =>
    intro last hlast hpos
    have hn : 0 < n := hpos n (by simp)
    have hlast0 : last ≠ 0 := ne_of_gt hlast
    have hstep : rate_limit_trace interval last (n :: rest)
        = (rate_limit_step interval last n).1
          :: rate_limit_trace interval (rate_limit_step interval last n).2 rest :=
      rfl
    by_cases hw : n - last < interval
    · have harith : n + (interval - (n - last)) = last + interval := by ring
      have hs : rate_limit_step interval last n = (last + interval, last + interval) := by
        simp only [rate_limit_step, hlast0, ite_false, if_pos hw, harith]
      rw [hstep, hs]
      refine List.Chain.cons (le_refl _) ?_
      exact ih (last + interval) (by linarith) (fun m hm => hpos m (by simp [hm]))
    · have hs : rate_limit_step interval last n = (n, n) := by
        simp only [rate_limit_step, hlast0, ite_false, if_neg hw]
      rw [hstep, hs]
      refine List.Chain.cons (by linarith [not_lt.mp hw]) ?_
      exact ih n hn (fun m hm => hpos m (by simp [hm]))

/-- C9 (confirmed): for the shared limiter's serialized `wait` executions with
positive monotonic-clock readings, the first call ever completes at its own
entry instant (it never sleeps), and any two consecutive completions are at
least `interval` seconds apart. -/
theorem rate_limiter_first_call_and_spacing (interval : ℚ) (entries : List ℚ)
    (hI : 0 ≤ interval) (hpos : ∀ n ∈ entries, 0 < n) :
    (∀ n rest, entries = n :: rest →
      (rate_limit_trace interval 0 entries).head? = some n)
    ∧ List.Chain' (fun a b => a + interval ≤ b)
        (rate_limit_trace interval 0 entries) := by
  constructor
  · rintro n rest rfl
    simp [rate_limit_trace, rate_limit_step]
  · cases entries with
    | nil => simp [rate_limit_trace]
    | cons n rest =>
      have hn : 0 < n := hpos n (by simp)
      have h0 : rate_limit_trace interval 0 (n :: rest)
          = n :: rate_limit_trace interval n rest := by
        simp [rate_limit_trace, rate_limit_step]
      rw [h0]
      exact rate_limit_chain interval hI rest n hn
        (fun m hm => hpos m (by simp [hm]))

/-- Witness for C9 with interval 12 and lock-acquisition instants 5, 6, 30:
completions are 5 (first call, no wait), 17 (delayed), 30 — each pair at
least 12 apart. -/
theorem rate_limiter_first_call_and_spacing_witness :
    (rate_limit_trace 12 0 [5, 6, 30]).head? = some 5
    ∧ List.Chain' (fun a b => a + 12 ≤ b) (rate_limit_trace 12 0 [5, 6, 30]) := by
  have h := rate_limiter_first_call_and_spacing 12 [5, 6, 30] (by norm_num)
    (by intro n hn; simp at hn; rcases hn with rfl | rfl | rfl <;> norm_num)
  exact ⟨h.1 5 [6, 30] rfl, h.2⟩

/-! ## C6: title similarity -/

/-- C6 (corrected): the similarity score is 1.0 whenever the two titles are
equal after normalization (cleaning + lowercasing), and it is 0.0 for two
titles that share no significant (length > 2) normalized word *provided*
neither normalized title is a substring of the other — the substring branch
returns at least 0.8 regardless of word overlap. -/
theorem title_similarity_exact_and_disjoint (s r : String) :
    (normalizedTitle s = normalizedTitle r → calculate_title_similarity s r = 1)
    ∧ (¬ (normalizedTitle s).data <:+: (normalizedTitle r).data →
        ¬ (normalizedTitle r).data <:+: (normalizedTitle s).data →
        (wordSet (normalizedTitle s)).filter (fun w => w.length > 2)
          ∩ (wordSet (normalizedTitle r)).filter (fun w => w.length > 2) = ∅ →
        calculate_title_similarity s r = 0) := by
  constructor
  · intro h
    simp [calculate_title_similarity, h]
  · intro h1 h2 h3
    have hne : normalizedTitle s ≠ normalizedTitle r := by
      intro he
      exact h1 (he ▸ List.infix_rfl)
    by_cases hcase : (wordSet (normalizedTitle s)).filter (fun w => w.length > 2)
        = ∅
    · have hcom : wordSet (normalizedTitle s)
          ∩ (wordSet (normalizedTitle r)).filter (fun w => w.length > 2) = ∅ := by
        rw [Finset.eq_empty_iff_forall_not_mem]
        intro w hw
        rw [Finset.mem_inter] at hw
        have hw2 := Finset.mem_filter.mp hw.2
        have hmem : w ∈ (wordSet (normalizedTitle s)).filter
            (fun w => w.length > 2) := Finset.mem_filter.mpr ⟨hw.1, hw2.2⟩
        rw [hcase] at hmem
        exact absurd hmem (Finset.not_mem_empty w)
      simp [calculate_title_similarity, hne, decide_eq_false h1,
        decide_eq_false h2, hcase, hcom]
    · simp [calculate_title_similarity, hne, decide_eq_false h1,
        decide_eq_false h2, hcase, h3]

/-- Witness for C6: titles equal after normalization score 1.0, and titles
with no shared significant words and no substring relation score 0.0. -/
theorem title_similarity_exact_and_disjoint_witness :
    calculate_title_similarity "Mario Kart" "mario kart" = 1
    ∧ calculate_title_similarity "hello" "world" = 0 := by
  constructor
  · exact (title_similarity_exact_and_disjoint "Mario Kart" "mario kart").1
      (by decide)
  · exact (title_similarity_exact_and_disjoint "hello" "world").2
      (by decide) (by decide) (by decide)

/-- C6 counterexample: "ab" and "xaby" share no significant (length > 2)
words, yet the similarity is 0.9, not 0.0, because "ab" is a substring of
"xaby" and the substring branch fires first. -/
theorem title_similarity_substring_counterexample :
    ((wordSet (normalizedTitle "ab")).filter (fun w => w.length > 2)
        ∩ (wordSet (normalizedTitle "xaby")).filter (fun w => w.length > 2) = ∅)
    ∧ calculate_title_similarity "ab" "xaby" = 9 / 10
    ∧ (9 / 10 : ℚ) ≠ 0 := by
  refine ⟨by decide, ?_, by norm_num⟩
  have hsub : decide (("ab" : String).data <:+: ("xaby" : String).data) = true :=
    by decide
  have hn : normalizedTitle "ab" = "ab" := by decide
  have hn2 : normalizedTitle "xaby" = "xaby" := by decide
  have hne : normalizedTitle "ab" ≠ normalizedTitle "xaby" := by decide
  simp only [calculate_title_similarity, hn, hn2]
  rw [if_neg (by decide : ¬ ("ab" : String) = "xaby"), if_pos]
  · norm_num [String.length]
  · rw [hsub]
    simp

/-! ## C2: per-item exception isolation -/

/-- C2 (confirmed): `enrich_item` is a total function into
`EnrichmentResult` even though both source lookups may raise; a raised eBay or
RGP lookup is converted into a failed `PriceResult` whose `error` is the
exception message; and `enrich_batch` processes each item independently, so
one item's failure cannot abort or alter any other item's result. -/
theorem enrich_item_error_isolation (cfg : PricingConfig) (items : List GameItem)
    (ebayLookup rgpLookup : GameItem → Except String PriceResult)
    (conv : ℚ → Except String ℚ) :
    (enrich_batch cfg items ebayLookup rgpLookup conv).length = items.length
    ∧ (∀ i (hi : i < items.length)
        (ho : i < (enrich_batch cfg items ebayLookup rgpLookup conv).length),
        (enrich_batch cfg items ebayLookup rgpLookup conv).get ⟨i, ho⟩
          = enrich_item cfg (items.get ⟨i, hi⟩) (ebayLookup (items.get ⟨i, hi⟩))
              (rgpLookup (items.get ⟨i, hi⟩)) conv)
    ∧ (∀ item msg rl, (item.is_processable = true ∨ cfg.include_non_game = true) →
        cfg.only_source ≠ .rgp →
        (enrich_item cfg item (.error msg) rl conv).ebay_result
          = some (failed_ebay_result msg))
    ∧ (∀ item msg el, (item.is_processable = true ∨ cfg.include_non_game = true) →
        cfg.only_source ≠ .ebay →
        (enrich_item cfg item el (.error msg) conv).rgp_result
          = some (failed_rgp_result msg))
    ∧ (∀ msg, (failed_ebay_result msg).success = false
        ∧ (failed_ebay_result msg).error = msg
        ∧ (failed_rgp_result msg).success = false
        ∧ (failed_rgp_result msg).error = msg) := by
  refine ⟨?_, ?_, ?_, ?_, ?_⟩
  · simp [enrich_batch]
  · intro i hi ho
    simp [enrich_batch, List.get_map]
  · intro item msg rl hproc hsrc
    have hskip : ¬(item.is_processable = false ∧ cfg.include_non_game = false) := by
      rcases hproc with h | h <;> simp [h]
    have hsel : cfg.only_source = SourceSel.ebay ∨ cfg.only_source = SourceSel.both := by
      cases h : cfg.only_source
      · exact Or.inl rfl
      · exact absurd h hsrc
      · exact Or.inr rfl
    simp [enrich_item, hskip, hsel]
  · intro item msg el hproc hsrc
    have hskip : ¬(item.is_processable = false ∧ cfg.include_non_game = false) := by
      rcases hproc with h | h <;> simp [h]
    have hsel : cfg.only_source = SourceSel.rgp ∨ cfg.only_source = SourceSel.both := by
      cases h : cfg.only_source
      · exact absurd h hsrc
      · exact Or.inl rfl
      · exact Or.inr rfl
    simp [enrich_item, hskip, hsel, Bind.bind, Except.bind]
  · intro msg
    simp [failed_ebay_result, failed_rgp_result]

/-- Witness for C2: with both lookups raising ("boom" / "kaput") on a
processable item under the default configuration, the item still yields an
`EnrichmentResult` whose two per-source results are the failed conversions
carrying those messages. -/
theorem enrich_item_error_isolation_witness :
    (enrich_item {} { platform := "SNES", title := "Mario", has_game := some "Y" }
        (.error "boom") (.error "kaput") (fun q => .ok q)).ebay_result
      = some (failed_ebay_result "boom")
    ∧ (enrich_item {} { platform := "SNES", title := "Mario", has_game := some "Y" }
        (.error "boom") (.error "kaput") (fun q => .ok q)).rgp_result
      = some (failed_rgp_result "kaput")
    ∧ (enrich_batch {} [{ platform := "SNES", title := "Mario", has_game := some "Y" }]
        (fun _ => .error "boom") (fun _ => .error "kaput") (fun q => .ok q)).length
      = 1 := by
  have h := enrich_item_error_isolation {}
    [{ platform := "SNES", title := "Mario", has_game := some "Y" }]
    (fun _ => .error "boom") (fun _ => .error "kaput") (fun q => .ok q)
  exact ⟨h.2.2.1 { platform := "SNES", title := "Mario", has_game := some "Y" }
      "boom" (.error "kaput") (Or.inl rfl) (by decide),
    h.2.2.2.1 { platform := "SNES", title := "Mario", has_game := some "Y" }
      "kaput" (.error "boom") (Or.inl rfl) (by decide),
    h.1⟩

/-! ## C5: the eBay sold-listings search outcome -/

/-- The filter loop only ever appends: whatever was accumulated before a
strategy (or before a mid-strategy conversion raise) is kept. -/
theorem collect_filtered_keeps_acc (conv : ℚ → String → Except String ℚ)
    (inc : Bool) (region : Region) (sr al ab : Bool) (max_results : Nat) :
    ∀ (raws : List RawItem) (acc : List SoldListing),
      ∃ suffix, (collect_filtered conv inc region sr al ab max_results raws acc).1
        = acc ++ suffix := by
  intro raws
  induction raws with
  | nil => intro acc; exact ⟨[], by simp [collect_filtered]⟩
  | cons x rs ih =>
    intro acc
    by_cases hp : (filter_listing x.title region sr al ab).1 = true
    · rcases hconv : convert_item_price conv inc x with e | l
      · have hc : collect_filtered conv inc region sr al ab max_results (x :: rs)
            acc = (acc, some e) := by
          simp only [collect_filtered]
          rw [if_pos hp, hconv]
        rw [hc]
        exact ⟨[], by simp⟩
      · have hc : collect_filtered conv inc region sr al ab max_results (x :: rs)
            acc
            = (if max_results ≤ (acc ++ [l]).length then (acc ++ [l], none)
               else collect_filtered conv inc region sr al ab max_results rs
                 (acc ++ [l])) := by
          simp only [collect_filtered]
          rw [if_pos hp, hconv]
        rw [hc]
        by_cases hm : max_results ≤ (acc ++ [l]).length
        · rw [if_pos hm]
          exact ⟨[l], rfl⟩
        · rw [if_neg hm]
          rcases ih (acc ++ [l]) with ⟨suffix, hs⟩
          exact ⟨l :: suffix, by rw [hs]; simp⟩
    · have hc : collect_filtered conv inc region sr al ab max_results (x :: rs) acc
          = collect_filtered conv inc region sr al ab max_results rs acc := by
        simp only [collect_filtered]
        rw [if_neg hp]
      rw [hc]
      exact ih acc

/-- The filter loop ends empty exactly when it started empty and the strategy
yields nothing: either no raw item passes the filter, or the first passing one
fails currency conversion (which aborts the strategy before anything is
appended). -/
theorem collect_filtered_fst_eq_nil_iff (conv : ℚ → String → Except String ℚ)
    (inc : Bool) (region : Region) (sr al ab : Bool) (max_results : Nat) :
    ∀ (raws : List RawItem) (acc : List SoldListing),
      (collect_filtered conv inc region sr al ab max_results raws acc).1 = []
        ↔ (acc = [] ∧ ¬ strategy_yields conv inc region sr al ab raws) := by
  intro raws
  induction raws with
  | nil =>
    intro acc
    simp [collect_filtered, strategy_yields, first_passing]
  | cons x rs ih =>
    intro acc
    by_cases hp : (filter_listing x.title region sr al ab).1 = true
    · have hfp : first_passing region sr al ab (x :: rs) = some x :=
        List.find?_cons_of_pos _ hp
      rcases hconv : convert_item_price conv inc x with e | l
      · have hc : collect_filtered conv inc region sr al ab max_results (x :: rs)
            acc = (acc, some e) := by
          simp only [collect_filtered]
          rw [if_pos hp, hconv]
        rw [hc]
        constructor
        · intro h
          refine ⟨h, ?_⟩
          rintro ⟨y, hy, l, hl⟩
          rw [hfp] at hy
          injection hy with hy
          subst hy
          rw [hconv] at hl
          cases hl
        · rintro ⟨h, _⟩
          exact h
      · have hyield : strategy_yields conv inc region sr al ab (x :: rs) :=
          ⟨x, hfp, l, hconv⟩
        have hc : collect_filtered conv inc region sr al ab max_results (x :: rs)
            acc
            = (if max_results ≤ (acc ++ [l]).length then (acc ++ [l], none)
               else collect_filtered conv inc region sr al ab max_results rs
                 (acc ++ [l])) := by
          simp only [collect_filtered]
          rw [if_pos hp, hconv]
        have hne : (collect_filtered conv inc region sr al ab max_results (x :: rs)
            acc).1 ≠ [] := by
          rw [hc]
          split
          · simp
          · rcases collect_filtered_keeps_acc conv inc region sr al ab max_results
              rs (acc ++ [l]) with ⟨suffix, hs⟩
            rw [hs]
            simp
        constructor
        · intro h
          exact absurd h hne
        · rintro ⟨h1, h2⟩
          exact absurd hyield h2
    · have hfp : first_passing region sr al ab (x :: rs)
          = first_passing region sr al ab rs :=
        List.find?_cons_of_neg _ (by simpa using hp)
      have hc : collect_filtered conv inc region sr al ab max_results (x :: rs) acc
          = collect_filtered conv inc region sr al ab max_results rs acc := by
        simp only [collect_filtered]
        rw [if_neg hp]
      rw [hc, ih]
      simp only [strategy_yields, hfp]

/-- With `max_results ≥ 1`, the strategy loop ends empty exactly when it
started empty and no strategy that fetched successfully yields a listing. -/
theorem run_strategies_fst_eq_nil_iff (conv : ℚ → String → Except String ℚ)
    (inc : Bool) (region : Region) (sr al ab : Bool) (max_results : Nat)
    (hmax : 1 ≤ max_results) :
    ∀ (strats : List (String × Except String (List RawItem)))
      (acc : List SoldListing) (used err : String),
      (run_strategies conv inc region sr al ab max_results strats acc used err).1
          = []
        ↔ (acc = []
            ∧ ∀ p ∈ strats, ∀ raws, p.2 = .ok raws →
                ¬ strategy_yields conv inc region sr al ab raws) := by
  intro strats
  induction strats with
  | nil => intro acc used err; simp [run_strategies]
  | cons p rest ih =>
    intro acc used err
    rcases p with ⟨nm, outcome⟩
    cases outcome with
    | error e =>
      simp only [run_strategies, List.mem_cons]
      rw [ih]
      constructor
      · rintro ⟨h1, h2⟩
        refine ⟨h1, fun q hq raws hraws => ?_⟩
        rcases hq with rfl | hq
        · simp at hraws
        · exact h2 q hq raws hraws
      · rintro ⟨h1, h2⟩
        exact ⟨h1, fun q hq raws hraws => h2 q (Or.inr hq) raws hraws⟩
    | ok raws =>
      simp only [run_strategies, List.mem_cons]
      rcases hcol : collect_filtered conv inc region sr al ab max_results raws acc
        with ⟨acc2, errOpt⟩
      have hiff : acc2 = []
          ↔ (acc = [] ∧ ¬ strategy_yields conv inc region sr al ab raws) := by
        have h0 := collect_filtered_fst_eq_nil_iff conv inc region sr al ab
          max_results raws acc
        rw [hcol] at h0
        exact h0
      cases errOpt with
      | some e =>
        simp only []
        rw [ih]
        constructor
        · rintro ⟨h1, h2⟩
          have hhh := hiff.mp h1
          refine ⟨hhh.1, fun q hq raws2 hraws2 => ?_⟩
          rcases hq with rfl | hq
          · have he : Except.ok (ε := String) raws = Except.ok raws2 := hraws2
            injection he with he2
            subst he2
            exact hhh.2
          · exact h2 q hq raws2 hraws2
        · rintro ⟨h1, h2⟩
          exact ⟨hiff.mpr ⟨h1, h2 (nm, .ok raws) (Or.inl rfl) raws rfl⟩,
            fun q hq raws2 hraws2 => h2 q (Or.inr hq) raws2 hraws2⟩
      | none =>
        simp only []
        by_cases hm : max_results ≤ acc2.length
        · rw [if_pos hm]
          constructor
          · intro h
            exfalso
            have h2 : acc2 = [] := h
            rw [h2] at hm
            simp only [List.length_nil] at hm
            omega
          · rintro ⟨h1, h2⟩
            exfalso
            have h0 : acc2 = [] :=
              hiff.mpr ⟨h1, h2 (nm, .ok raws) (Or.inl rfl) raws rfl⟩
            rw [h0] at hm
            simp only [List.length_nil] at hm
            omega
        · rw [if_neg hm, ih]
          constructor
          · rintro ⟨h1, h2⟩
            have hhh := hiff.mp h1
            refine ⟨hhh.1, fun q hq raws2 hraws2 => ?_⟩
            rcases hq with rfl | hq
            · have he : Except.ok (ε := String) raws = Except.ok raws2 := hraws2
              injection he with he2
              subst he2
              exact hhh.2
            · exact h2 q hq raws2 hraws2
          · rintro ⟨h1, h2⟩
            exact ⟨hiff.mpr ⟨h1, h2 (nm, .ok raws) (Or.inl rfl) raws rfl⟩,
              fun q hq raws2 hraws2 => h2 q (Or.inr hq) raws2 hraws2⟩

/-- The price accumulation fold is a mapped sum. -/
theorem foldl_add_map (g : SoldListing → ℚ) :
    ∀ (xs : List SoldListing) (a : ℚ),
      xs.foldl (fun s l => s + g l) a = a + (xs.map g).sum := by
  intro xs
  induction xs with
  | nil => intro a; simp
  | cons x xs ih =>
    intro a
    simp [ih]
    ring

/-- C5 (corrected): on a cache miss with `max_results ≥ 1`, the search
succeeds exactly when some fallback strategy that does not raise at
fetch/parse time has a first filter-passing raw listing whose currency
conversion succeeds (a conversion raise aborts a strategy mid-loop, keeping
only the listings already accumulated) — even if fewer than `max_results`
listings are found; on failure the price is absent and the error is the
literal string "No matching sold listings found after filtering"; on success
between 1 and `max_results` listings are accepted and the reported price is
the sum over the accepted listings with *nonzero* converted price of
(price+shipping when `include_shipping` is set and the total is nonzero, else
price alone), divided by the number of all accepted listings. -/
theorem search_sold_listings_outcome (item : GameItem)
    (strict_region allow_lots allow_box_only include_shipping : Bool)
    (max_results : Nat)
    (fStrict fRelaxedLanguage fRelaxedPackaging : Except String (List RawItem))
    (conv : ℚ → String → Except String ℚ) (res : PriceResult)
    (hmax : 1 ≤ max_results)
    (hres : res = search_sold_listings item strict_region allow_lots
      allow_box_only include_shipping max_results fStrict fRelaxedLanguage
      fRelaxedPackaging conv) :
    (res.success = true
      ↔ ∃ o ∈ [fStrict, fRelaxedLanguage, fRelaxedPackaging], ∃ raws,
          o = .ok raws
          ∧ strategy_yields conv include_shipping item.region strict_region
              allow_lots allow_box_only raws)
    ∧ (res.success = false →
        res.price_eur = none
        ∧ res.error = "No matching sold listings found after filtering")
    ∧ (res.success = true →
        0 < res.listings.length
        ∧ res.listings.length ≤ max_results
        ∧ res.price_eur
          = some ((((res.listings.filter (fun l => optTruthy l.price_eur)).map
                (fun l => if include_shipping ∧ optTruthy l.total_eur = true
                  then l.total_eur.getD 0 else l.price_eur.getD 0)).sum)
              / (res.listings.length : ℚ))) := by
  subst hres
  by_cases hnil : (run_strategies conv include_shipping item.region strict_region
      allow_lots allow_box_only max_results
      [("strict", fStrict), ("relaxed_language", fRelaxedLanguage),
       ("relaxed_packaging", fRelaxedPackaging)] [] "none" "").1 = []
  · have hall := (run_strategies_fst_eq_nil_iff conv include_shipping item.region
      strict_region allow_lots allow_box_only max_results hmax
      [("strict", fStrict), ("relaxed_language", fRelaxedLanguage),
       ("relaxed_packaging", fRelaxedPackaging)] [] "none" "").mp hnil
    have hfail : search_sold_listings item strict_region allow_lots
        allow_box_only include_shipping max_results fStrict fRelaxedLanguage
        fRelaxedPackaging conv
        = { source := .EBAY, success := false,
            error := "No matching sold listings found after filtering",
            details := "eBay: No results found for " ++ item.title ++ " ("
              ++ item.platform ++ ", " ++ item.region.value ++ ")" } := by
      simp only [search_sold_listings]
      rw [if_neg (by simp [hnil])]
    rw [hfail]
    refine ⟨?_, fun _ => ⟨rfl, rfl⟩, fun h => by simp at h⟩
    constructor
    · intro h
      simp at h
    · rintro ⟨o, ho, raws, hraws, hy⟩
      exfalso
      have hmem : o = fStrict ∨ o = fRelaxedLanguage ∨ o = fRelaxedPackaging := by
        simpa using ho
      rcases hmem with rfl | rfl | rfl
      · exact hall.2 ("strict", o) (by simp) raws hraws hy
      · exact hall.2 ("relaxed_language", o) (by simp) raws hraws hy
      · exact hall.2 ("relaxed_packaging", o) (by simp) raws hraws hy
  · have haccept : (run_strategies conv include_shipping item.region strict_region
        allow_lots allow_box_only max_results
        [("strict", fStrict), ("relaxed_language", fRelaxedLanguage),
         ("relaxed_packaging", fRelaxedPackaging)] [] "none" "").1.take max_results
        ≠ [] := by
      intro h
      rcases List.take_eq_nil_iff.mp h with h0 | h0
      · omega
      · exact hnil h0
    have hsucc : search_sold_listings item strict_region allow_lots
        allow_box_only include_shipping max_results fStrict fRelaxedLanguage
        fRelaxedPackaging conv
        = (let out := run_strategies conv include_shipping item.region
            strict_region allow_lots allow_box_only max_results
            [("strict", fStrict), ("relaxed_language", fRelaxedLanguage),
             ("relaxed_packaging", fRelaxedPackaging)] [] "none" ""
           let accepted := out.1.take max_results
           let total := (accepted.filter (fun l => optTruthy l.price_eur)).foldl
             (fun s l =>
               s + (if include_shipping ∧ optTruthy l.total_eur
                 then l.total_eur.getD 0 else l.price_eur.getD 0)) 0
           { source := .EBAY, success := true,
             price_eur := some (total / (accepted.length : ℚ)),
             listings := accepted, num_results := accepted.length,
             strategy_used := out.2.1, error := out.2.2 }) := by
      simp only [search_sold_listings]
      rw [if_pos hnil, if_pos haccept]
    rw [hsucc]
    simp only []
    refine ⟨?_, fun h => by simp at h, fun _ => ⟨?_, ?_, ?_⟩⟩
    · constructor
      · intro _
        by_contra hno
        push_neg at hno
        have hnone : ∀ p ∈ [("strict", fStrict),
            ("relaxed_language", fRelaxedLanguage),
            ("relaxed_packaging", fRelaxedPackaging)], ∀ raws, p.2 = .ok raws →
            ¬ strategy_yields conv include_shipping item.region strict_region
              allow_lots allow_box_only raws := by
          rintro ⟨nm, o⟩ hp raws hraws
          exact hno o (by
            simp only [List.mem_cons, List.mem_singleton] at hp ⊢
            rcases hp with h | h | h <;> simp [Prod.ext_iff] at h <;>
              simp [h.2]) raws hraws
        exact hnil ((run_strategies_fst_eq_nil_iff conv include_shipping
          item.region strict_region allow_lots allow_box_only max_results hmax _
          [] "none" "").mpr ⟨rfl, hnone⟩)
      · intro _
        trivial
    · exact List.length_pos.mpr haccept
    · exact List.length_take_le _ _
    · rw [foldl_add_map, zero_add]

/-- Witness for C5: a single passing, convertible raw listing in the strict
strategy makes the search succeed even though fewer than `max_results`
listings were found. -/
theorem search_sold_listings_outcome_witness :
    (search_sold_listings { platform := "SNES", title := "Mario" } false true true
        false 5 (.ok [{ title := "a", price := 40, currency := "EUR" }]) (.ok [])
        (.ok []) (fun a _ => .ok a)).success = true := by
  have h := search_sold_listings_outcome { platform := "SNES", title := "Mario" }
    false true true false 5
    (.ok [{ title := "a", price := 40, currency := "EUR" }]) (.ok []) (.ok [])
    (fun a _ => .ok a) _ (by norm_num) rfl
  exact h.1.mpr ⟨.ok [{ title := "a", price := 40, currency := "EUR" }], by simp,
    [{ title := "a", price := 40, currency := "EUR" }], rfl,
    { title := "a", price := 40, currency := "EUR" }, by decide, _, rfl⟩

/-- C5 counterexample, four parts, each refuting the claim as stated.
(1) The failure error string is
"No matching sold listings found after filtering", not the claimed
"no matching sold listings found".  (2) With `include_shipping` set and one
accepted listing of price 0.00 and shipping 5.00 (reference currency), the
claimed mean of price+shipping is 5.00, but the code's sum skips the
zero-priced listing (Python truthiness in the generator's `if lst.price_eur`)
and reports 0.00.  (3) A listing can survive client-side filtering and yet the
search fails: if its currency conversion raises (`ValueError` from
`convert_to_eur`), the strategy aborts before the listing is accumulated.
(4) With `max_results = 0`, the strategy loop breaks right after the first
strategy, so a listing surviving filtering in the second strategy is never
seen and the search fails. -/
theorem search_sold_listings_counterexample :
    ((search_sold_listings { platform := "SNES", title := "Mario" } false true
        true false 5 (.ok []) (.ok []) (.ok []) (fun a _ => .ok a)).error
        = "No matching sold listings found after filtering"
      ∧ "No matching sold listings found after filtering"
        ≠ "no matching sold listings found")
    ∧ ((search_sold_listings { platform := "SNES", title := "Mario" } false true
        true true 5
        (.ok [{ title := "a", price := 0, currency := "EUR",
                shipping_cost := some 5, shipping_currency := "EUR" }])
        (.ok []) (.ok []) (fun a _ => .ok a)).price_eur = some 0
      ∧ ((0 : ℚ) + 5) / 1 = 5 ∧ (0 : ℚ) ≠ 5)
    ∧ ((search_sold_listings { platform := "SNES", title := "Mario" } false true
        true false 5
        (.ok [{ title := "a", price := 40, currency := "XYZ" }]) (.ok []) (.ok [])
        (fun _ c => .error ("Unknown currency: " ++ c))).success = false
      ∧ (filter_listing "a" Region.PAL false true true).1 = true)
    ∧ ((search_sold_listings { platform := "SNES", title := "Mario" } false true
        true false 0 (.ok [])
        (.ok [{ title := "a", price := 40, currency := "EUR" }]) (.ok [])
        (fun a _ => .ok a)).success = false
      ∧ (filter_listing "a" Region.PAL false true true).1 = true) := by
  refine ⟨⟨rfl, by decide⟩, ⟨?_, by norm_num, by norm_num⟩,
    ⟨rfl, by decide⟩, ⟨rfl, by decide⟩⟩
  have h : (search_sold_listings { platform := "SNES", title := "Mario" } false
      true true true 5
      (.ok [{ title := "a", price := 0, currency := "EUR",
              shipping_cost := some 5, shipping_currency := "EUR" }])
      (.ok []) (.ok []) (fun a _ => .ok a)).price_eur
      = some ((0 : ℚ) / ((1 : Nat) : ℚ)) := rfl
  rw [h]
  norm_num

end PriceEnricher
